import Mathlib

/-!
Verification of the Aegis agent lifecycle & task scheduling engine
(`internal/agent`: manager, baseAgent, Runtime) against its specification.

The Go code is shallowly embedded: Go `interface{}` values become the
inductive `Value`; the manager's shared maps (`agents`, `tasks`, `events`)
become association lists inside an explicit system state `Sys`; the
goroutine spawned by `AssignTask` and the Runtime's worker loop become
explicit threads advanced by schedule actions, so that interleavings are
explicit.  Wall-clock times (`time.Now()`) are modelled by a logical clock
that ticks once per observable step; UUIDs by a counter.
-/

set_option maxHeartbeats 1000000
set_option maxRecDepth 100000

namespace Aegis

/-- Go `interface{}` values as used by the agent package: strings, ints,
rationals (for float64 literals), `[]string`, heterogeneous lists and
string-keyed maps, and `nil`. -/
inductive Value where
  | str (s : String)
  | int (n : Int)
  | strList (xs : List String)
  | list (xs : List Value)
  | vmap (kvs : List (String × Value))
  | nil

/-- Go type assertion `v.(string)`: succeeds exactly on a string value. -/
def Value.asString : Value → Option String
  | .str s => some s
  | _ => none

/-- Go type assertion `v.([]string)`: succeeds exactly on a `[]string`
value; a list of any other dynamic element type fails. -/
def Value.asStrList : Value → Option (List String)
  | .strList xs => some xs
  | _ => none

/-- Projection used to inspect event payloads in theorems: the string
stored under a key of a `map[string]interface{}` payload. -/
def Value.lookupStr (v : Value) (k : String) : Option String :=
  match v with
  | .vmap kvs => ((kvs.find? (fun p => p.1 == k)).map Prod.snd).bind Value.asString
  | _ => none

/-- `internal/types.Task`: immutable task record.  `Deadline` is an
optional instant (Go's zero `time.Time` is `none`). -/
structure Task where
  id : String
  type : String
  description : String := ""
  parameters : List (String × Value) := []
  deadline : Option Nat := none

/-- `internal/types.Result`: task execution result.  `Data` is
`interface{}` in Go but every construction site assigns a
`map[string]interface{}`, embedded as an association list. -/
structure Result where
  data : List (String × Value)
  metadata : List (String × Value)
  timestamp : Nat

/-- `internal/types.TaskStatus`: the mutable, queryable task record.
`Result`/`Error` are `nil` when absent (`Option`); Go's zero `EndTime`
is `none`.  `Progress` (float64, only ever 0.0 / 1.0) is a rational. -/
structure TaskStatus where
  id : String
  status : String
  progress : ℚ
  result : Option Result := none
  error : Option String := none
  startTime : Nat := 0
  endTime : Option Nat := none

/-- `agent.Event`: lifecycle event record. -/
structure Event where
  id : String
  type : String
  data : Value
  timestamp : Nat

/-- `internal/types.AgentStatus` (resource counters omitted: never read
or written by manager/runtime code paths under verification). -/
structure AgentStatus where
  id : String
  status : String
  currentTask : String := ""
deriving DecidableEq, Repr

/-- `agent.ToolConfig`. -/
structure ToolConfig where
  id : String
deriving DecidableEq, Repr

/-- `agent.AgentConfig` (model/memory/knowledge configs are consumed
only by the collaborator factories, which are parameters of the model,
so only their presence matters here). -/
structure AgentConfig where
  id : String := ""
  name : String
  description : String := ""
  capabilities : List String := []
  tools : List ToolConfig := []
deriving DecidableEq, Repr

/-! ### Error sentinels (`internal/agent/types.go`) and error strings -/

def ErrAgentNotFound : String := "agent not found"
def ErrTaskNotFound : String := "task not found"
def ErrInvalidConfig : String := "invalid configuration"

/-- `Runtime.EnqueueTask`'s rejection (`fmt.Errorf("task queue is full")`). -/
def ErrQueueFull : String := "task queue is full"

end Aegis

namespace Aegis

/-- Capacity of `Runtime.taskQueue` (`make(chan types.Task, 10)`). -/
def taskQueueCapacity : Nat := 10

/-- Capacity of each agent's event channel (`make(chan Event, 100)`). -/
def eventChanCapacity : Nat := 100

/-! ### Association-list operations standing in for `sync.Map` /
`map[string]chan Event`.  `find` is `Load`, `store` is `Store`
(overwrite), `remove` is `Delete`. -/

def AList.find {α : Type} : List (String × α) → String → Option α
  | [], _ => none
  | (k', v) :: rest, k => if k' = k then some v else AList.find rest k

def AList.store {α : Type} : List (String × α) → String → α → List (String × α)
  | [], k, v => [(k, v)]
  | (k', v') :: rest, k, v =>
      if k' = k then (k, v) :: rest else (k', v') :: AList.store rest k v

def AList.remove {α : Type} : List (String × α) → String → List (String × α)
  | [], _ => []
  | (k', v') :: rest, k =>
      if k' = k then AList.remove rest k else (k', v') :: AList.remove rest k

/-- Go map indexing `m[k]` on a `map[string]interface{}`: yields the zero
value (`nil` interface) when the key is absent. -/
def getParam (params : List (String × Value)) (k : String) : Value :=
  (AList.find params k).getD Value.nil

/-! ### Task handlers (`internal/agent/runtime.go`) -/

/-- `Runtime.handleConversation`: requires the `input` parameter to pass
the `.(string)` type assertion; on failure Go returns the zero `Result`
together with the error, embedded as `Except.error`. -/
def handleConversation (task : Task) (now : Nat) : Except String Result :=
  match (getParam task.parameters "input").asString with
  | none => .error "missing required parameter: input"
  | some input =>
      .ok { data := [("response", .str ("This is a response to: " ++ input))],
            metadata := [("tokens_used", .int 100), ("model", .str "gpt-4")],
            timestamp := now }

/-- `Runtime.handleResearch`: requires `topics` to pass the `.([]string)`
type assertion.  (Go builds a `map[string]interface{}` keyed by topic;
with duplicate topics the later entry wins in Go while the first wins in
this association list — no property under verification touches that.) -/
def handleResearch (task : Task) (now : Nat) : Except String Result :=
  match (getParam task.parameters "topics").asStrList with
  | none => .error "missing required parameter: topics"
  | some topics =>
      .ok { data := [("research_results",
              .vmap (topics.map fun t => (t, Value.str ("Research results for " ++ t))))],
            metadata := [("topics_count", .int topics.length),
                         ("search_time_ms", .int 1500)],
            timestamp := now }

/-- Rendering of Go's `%T` verb on the dynamic types `Value` carries. -/
def Value.goTypeName : Value → String
  | .str _ => "string"
  | .int _ => "int"
  | .strList _ => "[]string"
  | .list _ => "[]interface \x7b\x7d"
  | .vmap _ => "map[string]interface \x7b\x7d"
  | .nil => "<nil>"

mutual

/-- Rendering of Go's `%v` verb (default formatting). -/
def Value.goFmt : Value → String
  | .str s => s
  | .int n => toString n
  | .strList xs => "[" ++ String.intercalate " " xs ++ "]"
  | .list xs => "[" ++ String.intercalate " " (Value.goFmtList xs) ++ "]"
  | .vmap kvs => "map[" ++ String.intercalate " " (Value.goFmtKvs kvs) ++ "]"
  | .nil => "<nil>"

def Value.goFmtList : List Value → List String
  | [] => []
  | v :: vs => Value.goFmt v :: Value.goFmtList vs

def Value.goFmtKvs : List (String × Value) → List String
  | [] => []
  | (k, v) :: kvs => (k ++ ":" ++ Value.goFmt v) :: Value.goFmtKvs kvs

end

/-- `Runtime.handleAnalysis`: requires the `data` key to be present
(comma-ok map lookup; no type assertion). -/
def handleAnalysis (task : Task) (now : Nat) : Except String Result :=
  match AList.find task.parameters "data" with
  | none => .error "missing required parameter: data"
  | some data =>
      .ok { data := [("analysis_result", .str "Analysis completed successfully"),
                     ("summary", .str "This is a summary of the analysis"),
                     ("analyzed_data_size",
                      .str (data.goTypeName ++ " with "
                            ++ toString data.goFmt.length ++ " elements"))],
            metadata := [("data_points", .int 100), ("processing_time_ms", .int 500)],
            timestamp := now }

/-- `Runtime.executeTask`: type switch over `task.Type`.  (The
`executionMu` critical section serializes handler bodies per agent; the
handlers themselves are pure, so the lock is inlined away here.) -/
def executeTask (task : Task) (now : Nat) : Except String Result :=
  match task.type with
  | "conversation" => handleConversation task now
  | "research" => handleResearch task now
  | "analysis" => handleAnalysis task now
  | t => .error ("unknown task type: " ++ t)

/-- `Runtime.EnqueueTask`: non-blocking send on the bounded queue
(`select` with `default`), rejecting with `ErrQueueFull` when full. -/
def enqueueTask (queue : List Task) (task : Task) : Except String (List Task) :=
  if queue.length < taskQueueCapacity then .ok (queue ++ [task])
  else .error ErrQueueFull

end Aegis

namespace Aegis

/-! ### System state: manager registries, goroutines, worker loops -/

/-- One registered agent: the `baseAgent` record fused with the state of
its `Runtime` (bounded task queue, stop channel).  In Go the `agents`
map stores a pointer to exactly this shared state. -/
structure AgentRec where
  id : String
  config : AgentConfig
  status : AgentStatus
  queue : List Task := []
  stopChClosed : Bool := false

/-- The placeholder result `baseAgent.Execute` fabricates after a
successful enqueue ("这里简化实现" — the handler outcome is not awaited). -/
def placeholderResult (taskID : String) (now : Nat) : Result :=
  { data := [("message", .str "Task received and processing")],
    metadata := [("task_id", .str taskID), ("status", .str "processing")],
    timestamp := now }

/-- `baseAgent.Execute`: marks the agent working, enqueues onto the
Runtime queue, and returns the placeholder result (or the enqueue
error, also setting agent status `error`).  The `runtime == nil` guard
never fires for agents built by `CreateAgent` and is omitted. -/
def agentExecute (a : AgentRec) (task : Task) (now : Nat) :
    AgentRec × Except String Result :=
  let a := { a with status := { a.status with status := "working", currentTask := task.id } }
  match enqueueTask a.queue task with
  | .error e => ({ a with status := { a.status with status := "error" } }, .error e)
  | .ok q => ({ a with queue := q }, .ok (placeholderResult task.id now))

/-- The goroutine spawned by `manager.AssignTask`, reified: a program
counter plus the goroutine-local `taskStatus` copy the closure captured,
and the values `agent.Execute` returned.
pc 0: set agent working / store `running`; pc 1: `Execute`;
pc 2: emit terminal event and store the terminal status;
pc 3: set agent idle; pc 4: finished. -/
structure GoThread where
  agentID : String
  task : Task
  pc : Nat := 0
  localStatus : TaskStatus
  execError : Option String := none
  execResult : Option Result := none

/-- Whole-system state.  `events` holds each live agent's channel buffer
(subscriber-visible); `printed` is the stdout log produced by
`Runtime.recordEvent`; `assignRets` logs the value each `AssignTask`
call returned to its caller.  `now` is a logical clock ticking once per
scheduled action; `uuidCtr` feeds `uuid.New()`. -/
structure Sys where
  agents : List (String × AgentRec) := []
  tasks : List (String × TaskStatus) := []
  events : List (String × List Event) := []
  threads : List GoThread := []
  printed : List Event := []
  assignRets : List (Except String Unit) := []
  now : Nat := 0
  uuidCtr : Nat := 0

def Sys.init : Sys := {}

def freshUUID (st : Sys) : String × Sys :=
  ("uuid-" ++ toString st.uuidCtr, { st with uuidCtr := st.uuidCtr + 1 })

/-- `manager.emitEvent`: non-blocking send on the agent's event channel;
missing channel or full buffer drops the event. -/
def emitEvent (st : Sys) (agentID : String) (ev : Event) : Sys :=
  match AList.find st.events agentID with
  | none => st
  | some buf =>
      if buf.length < eventChanCapacity
      then { st with events := AList.store st.events agentID (buf ++ [ev]) }
      else st

/-- `Runtime.recordEvent`: constructs the event and only prints it to
stdout (`fmt.Printf`; the TODO to write it to an event stream is
unimplemented), guarded by a non-empty agent id. -/
def recordEvent (st : Sys) (agentID : String) (eventType : String) (data : Value) : Sys :=
  let (eid, st) := freshUUID st
  if agentID ≠ "" then
    { st with printed := st.printed ++
        [{ id := eid, type := eventType, data := data, timestamp := st.now }] }
  else st

/-- The initial status record `AssignTask` stores: `{pending, 0.0,
StartTime=now}`. -/
def initialTaskStatus (tid : String) (now : Nat) : TaskStatus :=
  { id := tid, status := "pending", progress := 0, startTime := now }

/-- The goroutine `AssignTask` spawns, capturing the just-stored status
record as its local copy. -/
def spawnGoThread (agentID : String) (task : Task) (ts : TaskStatus) : GoThread :=
  { agentID := agentID, task := task, localStatus := ts }

/-! ### Manager operations (`part_008`) -/

/-- Outcomes of the collaborator factory calls `CreateAgent` makes
(`memory.Manager.CreateStore`, `knowledge.Base.CreateContext`,
`tool.Manager.GetTool`); the collaborators are external to the
component under verification, so their outcomes are model parameters. -/
structure Collab where
  memoryStore : Except String Unit
  knowledgeCtx : Except String Unit
  getTool : String → Except String Unit

/-- All collaborator calls succeed. -/
def Collab.allOk : Collab := ⟨.ok (), .ok (), fun _ => .ok ()⟩

/-- `manager.validateConfig`: only the non-empty-name check exists. -/
def validateConfig (config : AgentConfig) : Except String Unit :=
  if config.name = "" then .error ErrInvalidConfig else .ok ()

/-- `manager.getTools`: resolves tool references in order, failing on
the first unresolved one with a wrapped error. -/
def getTools (collab : Collab) : List ToolConfig → Except String (List String)
  | [] => .ok []
  | tc :: rest =>
      match collab.getTool tc.id with
      | .error e => .error ("failed to get tool " ++ tc.id ++ ": " ++ e)
      | .ok _ =>
          match getTools collab rest with
          | .error e => .error e
          | .ok ids => .ok (tc.id :: ids)

/-- `manager.CreateAgent`: assigns a fresh ID when absent, validates,
provisions collaborators, builds agent + runtime (`Initialize` sets
status `ready` and prints `agent_initialized`), registers the agent,
opens its event channel and publishes `agent_created`. -/
def createAgent (st : Sys) (collab : Collab) (config : AgentConfig) :
    Sys × Except String AgentRec :=
  let (cid, st) := if config.id = "" then freshUUID st else (config.id, st)
  let config := { config with id := cid }
  match validateConfig config with
  | .error e => (st, .error e)
  | .ok _ =>
  match collab.memoryStore with
  | .error e => (st, .error ("failed to create memory store: " ++ e))
  | .ok _ =>
  match collab.knowledgeCtx with
  | .error e => (st, .error ("failed to create knowledge context: " ++ e))
  | .ok _ =>
  match getTools collab config.tools with
  | .error e => (st, .error ("failed to get tools: " ++ e))
  | .ok _ =>
    let a : AgentRec :=
      { id := config.id, config := config,
        status := { id := config.id, status := "ready" } }
    let st := recordEvent st a.id "agent_initialized" (.str a.id)
    let st := { st with agents := AList.store st.agents config.id a }
    let st := { st with events := AList.store st.events config.id [] }
    let (eid, st) := freshUUID st
    let st := emitEvent st config.id
      { id := eid, type := "agent_created", data := .str config.id, timestamp := st.now }
    (st, .ok a)

/-- `manager.DestroyAgent`: unknown id fails; otherwise `baseAgent.Stop`
(status `stopped`, `Runtime.Stop` closes the stop channel — closing an
already-closed one would panic, reported in the `Bool`), then the record
is deleted and the event channel closed-and-deleted. -/
def destroyAgent (st : Sys) (agentID : String) : Sys × Except String Unit × Bool :=
  match AList.find st.agents agentID with
  | none => (st, .error ErrAgentNotFound, false)
  | some a =>
      if a.stopChClosed then (st, .error "close of closed channel", true)
      else
        let st := { st with agents := AList.remove st.agents agentID }
        let st :=
          match AList.find st.events agentID with
          | some _ => { st with events := AList.remove st.events agentID }
          | none => st
        (st, .ok (), false)

/-- `manager.AssignTask` (synchronous part): unknown agent fails;
otherwise assign an ID if absent, store the initial `pending` status,
publish `task_assigned` and spawn the execution goroutine. -/
def assignTask (st : Sys) (agentID : String) (task : Task) : Sys × Except String Unit :=
  match AList.find st.agents agentID with
  | none => (st, .error ErrAgentNotFound)
  | some _ =>
      let (tid, st) := if task.id = "" then freshUUID st else (task.id, st)
      let task := { task with id := tid }
      let ts := initialTaskStatus task.id st.now
      let st := { st with tasks := AList.store st.tasks task.id ts }
      let (eid, st) := freshUUID st
      let st := emitEvent st agentID
        { id := eid, type := "task_assigned", data := .str task.id, timestamp := st.now }
      let st := { st with threads := st.threads ++ [spawnGoThread agentID task ts] }
      (st, .ok ())

/-- `manager.CancelTask`: unknown task fails; a `completed` or `failed`
task is a no-op success (a `cancelled` one is NOT in that guard);
otherwise the status is re-stored as `cancelled` with `EndTime` now. -/
def cancelTask (st : Sys) (taskID : String) : Sys × Except String Unit :=
  match AList.find st.tasks taskID with
  | none => (st, .error ErrTaskNotFound)
  | some ts =>
      if ts.status = "completed" ∨ ts.status = "failed" then (st, .ok ())
      else
        let ts := { ts with status := "cancelled", endTime := some st.now }
        ({ st with tasks := AList.store st.tasks taskID ts }, .ok ())

/-- `manager.GetTaskStatus`. -/
def getTaskStatus (st : Sys) (taskID : String) : Except String TaskStatus :=
  match AList.find st.tasks taskID with
  | none => .error ErrTaskNotFound
  | some ts => .ok ts

/-- `manager.GetAgentStatus`. -/
def getAgentStatus (st : Sys) (agentID : String) : Except String AgentStatus :=
  match AList.find st.agents agentID with
  | none => .error ErrAgentNotFound
  | some a => .ok a.status

/-- `manager.SubscribeToEvents`: returns the agent's channel (its buffer
here — the subscriber-visible event sequence). -/
def subscribeToEvents (st : Sys) (agentID : String) : Except String (List Event) :=
  match AList.find st.events agentID with
  | none => .error ErrAgentNotFound
  | some buf => .ok buf

end Aegis

namespace Aegis

/-- Embedding of a `types.Result` as the `interface{}` payload of the
`task_completed` print (`"result": result`). -/
def Result.toValue (r : Result) : Value :=
  .vmap [("Data", .vmap r.data), ("Metadata", .vmap r.metadata)]

/-- One step of the goroutine spawned by `AssignTask` (see `GoThread`).
If the agent was destroyed meanwhile the Go closure still holds the
pointer; its mutations of the unregistered record and its enqueue onto
the stopped runtime's queue are unobservable, so only the thread-local
effects remain. -/
def stepThread (st : Sys) (tid : Nat) : Sys :=
  match st.threads[tid]? with
  | none => st
  | some th =>
    match th.pc with
    | 0 =>
        let st :=
          match AList.find st.agents th.agentID with
          | some a =>
              let a' := { a with status :=
                { a.status with status := "working", currentTask := th.task.id } }
              { st with agents := AList.store st.agents th.agentID a' }
          | none => st
        let ls := { th.localStatus with status := "running" }
        let st := { st with tasks := AList.store st.tasks th.task.id ls }
        { st with threads := st.threads.set tid { th with pc := 1, localStatus := ls } }
    | 1 =>
        match AList.find st.agents th.agentID with
        | some a =>
            let (a', r) := agentExecute a th.task st.now
            let st := { st with agents := AList.store st.agents th.agentID a' }
            match r with
            | .ok res =>
                let th' := { th with pc := 2, execResult := some res }
                { st with threads := st.threads.set tid th' }
            | .error e =>
                let th' := { th with pc := 2, execError := some e }
                { st with threads := st.threads.set tid th' }
        | none =>
            let res := placeholderResult th.task.id st.now
            let th' := { th with pc := 2, execResult := some res }
            { st with threads := st.threads.set tid th' }
    | 2 =>
        match th.execError with
        | some e =>
            let ls := { th.localStatus with
              status := "failed", error := some e, endTime := some st.now }
            let (eid, st) := freshUUID st
            let st := emitEvent st th.agentID
              { id := eid, type := "task_failed",
                data := .vmap [("task_id", .str th.task.id), ("error", .str e)],
                timestamp := st.now }
            let st := { st with tasks := AList.store st.tasks th.task.id ls }
            { st with threads := st.threads.set tid { th with pc := 3, localStatus := ls } }
        | none =>
            let res := th.execResult.getD (placeholderResult th.task.id st.now)
            let ls := { th.localStatus with
              status := "completed", result := some res, progress := 1,
              endTime := some st.now }
            let (eid, st) := freshUUID st
            let st := emitEvent st th.agentID
              { id := eid, type := "task_completed",
                data := .vmap [("task_id", .str th.task.id)], timestamp := st.now }
            let st := { st with tasks := AList.store st.tasks th.task.id ls }
            { st with threads := st.threads.set tid { th with pc := 3, localStatus := ls } }
    | 3 =>
        let st :=
          match AList.find st.agents th.agentID with
          | some a =>
              let a' := { a with status :=
                { a.status with status := "idle", currentTask := "" } }
              { st with agents := AList.store st.agents th.agentID a' }
          | none => st
        { st with threads := st.threads.set tid { th with pc := 4 } }
    | _ => st

/-- One iteration of `Runtime.taskWorker` for the given agent: once the
stop channel is closed the worker returns; otherwise it dequeues one
task and runs `processTask`, whose `recordEvent` calls only print
(`task_started`, then `task_completed` / `task_failed`). -/
def workerStep (st : Sys) (agentID : String) : Sys :=
  match AList.find st.agents agentID with
  | none => st
  | some a =>
      if a.stopChClosed then st
      else
        match a.queue with
        | [] => st
        | task :: rest =>
            let st := { st with agents := AList.store st.agents agentID ({ a with queue := rest }) }
            let st := recordEvent st agentID "task_started" (.str task.id)
            match executeTask task st.now with
            | .error e =>
                recordEvent st agentID "task_failed"
                  (.vmap [("task_id", .str task.id), ("error", .str e)])
            | .ok res =>
                recordEvent st agentID "task_completed"
                  (.vmap [("task_id", .str task.id), ("result", res.toValue)])

/-- A schedulable step: a caller-level manager operation, one step of an
`AssignTask` goroutine, or one iteration of an agent's worker loop. -/
inductive Action where
  | createAgent (config : AgentConfig)
  | destroyAgent (agentID : String)
  | assignTask (agentID : String) (task : Task)
  | cancelTask (taskID : String)
  | goStep (tid : Nat)
  | workerStep (agentID : String)

/-- Execute one scheduled action (the logical clock ticks first, so
distinct actions observe distinct `time.Now()` values). -/
def stepAction (st : Sys) (act : Action) : Sys :=
  let st := { st with now := st.now + 1 }
  match act with
  | .createAgent config => (createAgent st Collab.allOk config).1
  | .destroyAgent agentID => (destroyAgent st agentID).1
  | .assignTask agentID task =>
      let (st, r) := assignTask st agentID task
      { st with assignRets := st.assignRets ++ [r] }
  | .cancelTask taskID => (cancelTask st taskID).1
  | .goStep tid => stepThread st tid
  | .workerStep agentID => Aegis.workerStep st agentID

/-- Run a schedule of actions from a state. -/
def run (st : Sys) (acts : List Action) : Sys := acts.foldl stepAction st

end Aegis

namespace Aegis

/-! ### Concrete scenarios used by the theorems below -/

def cfgA : AgentConfig := { id := "a1", name := "A" }

def convTask : Task :=
  { id := "t1", type := "conversation", parameters := [("input", .str "hi")] }

def convTask2 : Task :=
  { id := "t2", type := "conversation", parameters := [("input", .str "again")] }

def bogusTask : Task := { id := "t1", type := "bogus" }

def wrongInputTask : Task :=
  { id := "x", type := "conversation", parameters := [("input", .int 5)] }

def wrongTopicsTask : Task :=
  { id := "x", type := "research", parameters := [("topics", .list [.int 1])] }

/-- Create the agent, assign one task, run the `AssignTask` goroutine to
completion, then let the worker process the queued task. -/
def convSched : List Action :=
  [.createAgent cfgA, .assignTask "a1" convTask,
   .goStep 0, .goStep 0, .goStep 0, .goStep 0, .workerStep "a1"]

def bogusSched : List Action :=
  [.createAgent cfgA, .assignTask "a1" bogusTask,
   .goStep 0, .goStep 0, .goStep 0, .goStep 0, .workerStep "a1"]

/-- `CancelTask` lands after the goroutine stored `running` but before
its terminal store. -/
def cancelRaceSched : List Action :=
  [.createAgent cfgA, .assignTask "a1" convTask, .goStep 0, .cancelTask "t1"]

/-- Assign then cancel while still `pending`. -/
def c6Sched : List Action :=
  [.createAgent cfgA, .assignTask "a1" convTask, .cancelTask "t1"]

def rapidTask (n : Nat) : Task :=
  { id := "t" ++ toString n, type := "conversation", parameters := [("input", .str "hi")] }

/-- Eleven rapid-fire `AssignTask` calls; each spawned goroutine then runs
to completion before the worker is ever scheduled, so the bounded queue
(capacity 10) fills and the eleventh enqueue is rejected. -/
def rapidSched : List Action :=
  [.createAgent cfgA]
    ++ (List.range 11).map (fun n => .assignTask "a1" (rapidTask n))
    ++ (List.range 11).flatMap (fun n => [.goStep n, .goStep n, .goStep n, .goStep n])

/-- Two tasks through the single worker, in order. -/
def fifoSched : List Action :=
  [.createAgent cfgA, .assignTask "a1" convTask, .assignTask "a1" convTask2,
   .goStep 0, .goStep 0, .goStep 0, .goStep 0, .goStep 1, .goStep 1, .goStep 1, .goStep 1,
   .workerStep "a1", .workerStep "a1"]

/-- A `pending` task record, as `AssignTask` initially stores it. -/
def pendingTs : TaskStatus :=
  { id := "t1", status := "pending", progress := 0 }

/-- A state holding one pending task. -/
def c6WitSys : Sys := { tasks := [("t1", pendingTs)] }

/-- A state holding one freshly created agent `a1`. -/
def oneAgentSys : Sys := (createAgent Sys.init Collab.allOk cfgA).1

/-- The agent record `CreateAgent` builds and registers for a validated
config whose effective id is `cid`. -/
def mkAgentRec (cid : String) (config : AgentConfig) : AgentRec :=
  { id := cid, config := { config with id := cid },
    status := { id := cid, status := "ready" } }

/-- A collaborator set whose memory-store factory fails. -/
def memFailCollab : Collab := ⟨.error "boom", .ok (), fun _ => .ok ()⟩

/-- The agent record `CreateAgent` registers for `cfgA`. -/
def agentA : AgentRec :=
  { id := "a1", config := { cfgA with id := "a1" },
    status := { id := "a1", status := "ready" } }

end Aegis

namespace Aegis

/-! ### Schedule bookkeeping for the terminal-stability theorem -/

/-- Task ids of the `assignTask` actions of a schedule, as submitted. -/
def assignedIds : List Action → List String
  | [] => []
  | .assignTask _ t :: rest => t.id :: assignedIds rest
  | _ :: rest => assignedIds rest

/-- Side condition consumed action by action: a submitted task carries
an explicit id that was never submitted before (the spec's §3 invariant
"a Task ID is unique within a Manager instance for its lifetime"). -/
def actionOK (act : Action) (assigned : List String) : Prop :=
  match act with
  | .assignTask _ t => t.id ≠ "" ∧ t.id ∉ assigned
  | _ => True

/-- Schedules whose submitted task ids are explicit and pairwise
distinct. -/
def WellFormedSchedule (acts : List Action) : Prop :=
  (assignedIds acts).Nodup ∧ "" ∉ assignedIds acts

/-- Reachability invariant tying the goroutine pool to the task table:
goroutine task ids are among the submitted ids (in order), task-table
keys are submitted ids, and a task that is already `completed`/`failed`
can only belong to a goroutine past its terminal store (pc ≥ 3). -/
structure Inv (st : Sys) (assigned : List String) : Prop where
  threadIds : List.Sublist (st.threads.map (fun th => th.task.id)) assigned
  taskKeys : ∀ id, id ∉ assigned → AList.find st.tasks id = none
  terminalPc : ∀ (i : Nat) (th : GoThread), st.threads[i]? = some th →
      ∀ ts, AList.find st.tasks th.task.id = some ts →
      ts.status = "completed" ∨ ts.status = "failed" → 3 ≤ th.pc

/-- Prefix of the C3 witness schedule: the goroutine completes the task
(terminal store at pc 2) before anything else happens. -/
def c3WitActs : List Action :=
  [.createAgent cfgA, .assignTask "a1" convTask, .goStep 0, .goStep 0, .goStep 0]

/-- The completed record the goroutine stores in that run. -/
def c3CompletedTs : TaskStatus :=
  { id := "t1", status := "completed", progress := 1,
    result := some (placeholderResult "t1" 4), error := none,
    startTime := 2, endTime := some 5 }

/-! ### Association-list lemmas -/

theorem AList.find_store_self {α : Type} (m : List (String × α)) (k : String) (v : α) :
    AList.find (AList.store m k v) k = some v := by
  induction m with
  | nil => simp [AList.store, AList.find]
  | cons p rest ih =>
      obtain ⟨k', v'⟩ := p
      by_cases h : k' = k
      · simp [AList.store, AList.find, h]
      · simp [AList.store, AList.find, h, ih]

theorem AList.find_store_ne {α : Type} (m : List (String × α)) (k j : String) (v : α)
    (hj : j ≠ k) : AList.find (AList.store m k v) j = AList.find m j := by
  have hk : ¬ (k = j) := fun h => hj h.symm
  induction m with
  | nil => simp [AList.store, AList.find, hk]
  | cons p rest ih =>
      obtain ⟨k', v'⟩ := p
      by_cases h : k' = k
      · subst h
        have : ¬ (k' = j) := fun h' => hj h'.symm
        simp [AList.store, AList.find, this]
      · by_cases h2 : k' = j
        · simp [AList.store, AList.find, h, h2, hj]
        · simp [AList.store, AList.find, h, h2, ih]

theorem AList.find_remove_self {α : Type} (m : List (String × α)) (k : String) :
    AList.find (AList.remove m k) k = none := by
  induction m with
  | nil => simp [AList.remove, AList.find]
  | cons p rest ih =>
      obtain ⟨k', v'⟩ := p
      by_cases h : k' = k
      · simp [AList.remove, AList.find, h, ih]
      · simp [AList.remove, AList.find, h, ih]

theorem AList.find_remove_ne {α : Type} (m : List (String × α)) (k j : String)
    (hj : j ≠ k) : AList.find (AList.remove m k) j = AList.find m j := by
  induction m with
  | nil => simp [AList.remove, AList.find]
  | cons p rest ih =>
      obtain ⟨k', v'⟩ := p
      by_cases h : k' = k
      · subst h
        have : ¬ (k' = j) := fun h' => hj h'.symm
        simp [AList.remove, AList.find, this, ih]
      · by_cases h2 : k' = j
        · simp [AList.remove, AList.find, h, h2, hj, ih]
        · simp [AList.remove, AList.find, h, h2, ih]

end Aegis

namespace Aegis

/-! ### Claim theorems -/

/-- Claim C1 (code bug): the spec requires an `AssignTask` with unknown
`Type: "bogus"` to reach terminal status `failed` with an
UnknownTaskType error referencing `"bogus"`.  In the code the manager's
goroutine marks the task `completed` with a nil error (the placeholder
`Execute` result), while the `unknown task type: bogus` error produced
by `Runtime.executeTask` is only printed by the worker, never stored in
`TaskStatus`. -/
theorem claim_C1 :
    (getTaskStatus (run Sys.init bogusSched) "t1").toOption.map TaskStatus.status
        = some "completed" ∧
    (getTaskStatus (run Sys.init bogusSched) "t1").toOption.map TaskStatus.error
        = some none ∧
    executeTask bogusTask 0 = .error "unknown task type: bogus" ∧
    (run Sys.init bogusSched).printed.map
        (fun ev => (ev.type, ev.data.lookupStr "error"))
        = [("agent_initialized", none), ("task_started", none),
           ("task_failed", some "unknown task type: bogus")] :=
  ⟨rfl, rfl, rfl, by decide⟩

/-- Claim C2 (code bug): the spec scenario expects the conversation task
to complete with `Result.Data["response"]` non-empty.  The code does end
at `completed` with `Progress = 1.0`, but the stored Result is the
placeholder from `baseAgent.Execute` (`Data["message"]`), with no
`response` key at all; the handler's actual response (non-empty, shown
in the last conjunct) is discarded. -/
theorem claim_C2 :
    (getTaskStatus (run Sys.init convSched) "t1").toOption.map TaskStatus.status
        = some "completed" ∧
    (getTaskStatus (run Sys.init convSched) "t1").toOption.map TaskStatus.progress
        = some 1 ∧
    (getTaskStatus (run Sys.init convSched) "t1").toOption.map
        (fun ts => ts.result.map (fun r => AList.find r.data "response"))
        = some (some none) ∧
    (getTaskStatus (run Sys.init convSched) "t1").toOption.map
        (fun ts => ts.result.map (fun r => AList.find r.data "message"))
        = some (some (some (.str "Task received and processing"))) ∧
    handleConversation convTask 0 =
      .ok { data := [("response", .str "This is a response to: hi")],
            metadata := [("tokens_used", .int 100), ("model", .str "gpt-4")],
            timestamp := 0 } :=
  ⟨rfl, rfl, rfl, rfl, rfl⟩

/-- Claim C5 (code bug): the spec requires the subscriber-visible event
sequence of a task to contain `task_started` before its terminal event.
`Runtime.recordEvent` never writes to the event channel (its event-stream
write is an unimplemented TODO; it only prints), so subscribers see
`task_assigned` / `task_completed` but never `task_started` — the
started/terminal pair exists only on stdout (where it is FIFO-ordered,
conjuncts 3 and 4). -/
theorem claim_C5 :
    (subscribeToEvents (run Sys.init convSched) "a1").toOption.map
        (fun evs => evs.map Event.type)
        = some ["agent_created", "task_assigned", "task_completed"] ∧
    (run Sys.init convSched).printed.map Event.type
        = ["agent_initialized", "task_started", "task_completed"] ∧
    ((run Sys.init fifoSched).printed.filter
        (fun ev => ev.type == "task_started")).map (fun ev => ev.data.asString)
        = [some "t1", some "t2"] ∧
    ((subscribeToEvents (run Sys.init fifoSched) "a1").toOption.getD []).map
        Event.type
        = ["agent_created", "task_assigned", "task_assigned",
           "task_completed", "task_completed"] :=
  ⟨rfl, rfl, by decide, by decide⟩

/-- Claim C4 counterexample: eleven rapid-fire `AssignTask` calls against
the capacity-10 queue all return success to the caller — the eleventh
call does not return `QueueFull` as the claim states (the enqueue happens
inside the spawned goroutine, after `AssignTask` has already returned). -/
theorem claim_C4_counterexample :
    (run Sys.init rapidSched).assignRets = List.replicate 11 (Except.ok ()) :=
  rfl

/-- Claim C4 (corrected): `AssignTask` never reports `QueueFull` to its
caller — for any known agent it returns success unconditionally; the
bounded queue's rejection surfaces asynchronously instead: the spawned
goroutine marks the overflowing task `failed` with error
`"task queue is full"` (conjuncts 2 and 3, on the eleven-task scenario). -/
theorem claim_C4 (st : Sys) (agentID : String) (a : AgentRec) (task : Task)
    (hfind : AList.find st.agents agentID = some a) :
    (assignTask st agentID task).2 = .ok () ∧
    (getTaskStatus (run Sys.init rapidSched) "t10").toOption.map TaskStatus.status
        = some "failed" ∧
    (getTaskStatus (run Sys.init rapidSched) "t10").toOption.map TaskStatus.error
        = some (some ErrQueueFull) := by
  refine ⟨?_, rfl, rfl⟩
  by_cases hid : task.id = "" <;> simp [assignTask, hfind, hid]

/-- Witness for C4 at a concrete input. -/
theorem claim_C4_witness :
    (assignTask oneAgentSys "a1" convTask).2 = .ok () ∧
    (getTaskStatus (run Sys.init rapidSched) "t10").toOption.map TaskStatus.status
        = some "failed" ∧
    (getTaskStatus (run Sys.init rapidSched) "t10").toOption.map TaskStatus.error
        = some (some ErrQueueFull) :=
  claim_C4 oneAgentSys "a1" agentA convTask rfl

/-- Claim C6 counterexample: `CancelTask` on an already-`cancelled` task
does NOT leave the record unchanged: it succeeds and re-stores
`cancelled` with a fresh `EndTime` (3 → 4 here), because the no-op guard
checks only `completed`/`failed`. -/
theorem claim_C6_counterexample :
    (getTaskStatus (run Sys.init c6Sched) "t1").toOption.map TaskStatus.status
        = some "cancelled" ∧
    (getTaskStatus (run Sys.init c6Sched) "t1").toOption.map TaskStatus.endTime
        = some (some 3) ∧
    (cancelTask (run Sys.init c6Sched) "t1").2 = .ok () ∧
    (getTaskStatus (run Sys.init (c6Sched ++ [.cancelTask "t1"])) "t1").toOption.map
        TaskStatus.endTime = some (some 4) :=
  ⟨rfl, rfl, rfl, rfl⟩

/-- Claim C6 (corrected): `CancelTask` on an unknown id fails with
`TaskNotFound`; it is a no-op success only when the status is
`completed` or `failed`; on ANY other status — including an
already-`cancelled` task — it succeeds and re-stores the record as
`cancelled` with `EndTime` set to the current time. -/
theorem claim_C6 (st : Sys) (taskID : String) :
    (AList.find st.tasks taskID = none →
      cancelTask st taskID = (st, .error ErrTaskNotFound)) ∧
    (∀ ts, AList.find st.tasks taskID = some ts →
      (ts.status = "completed" ∨ ts.status = "failed") →
      cancelTask st taskID = (st, .ok ())) ∧
    (∀ ts, AList.find st.tasks taskID = some ts →
      ts.status ≠ "completed" → ts.status ≠ "failed" →
      (cancelTask st taskID).2 = .ok () ∧
      getTaskStatus (cancelTask st taskID).1 taskID =
        .ok { ts with status := "cancelled", endTime := some st.now }) := by
  refine ⟨?_, ?_, ?_⟩
  · intro h
    simp [cancelTask, h]
  · intro ts h hterm
    rcases hterm with h' | h' <;> simp [cancelTask, h, h']
  · intro ts h h1 h2
    have hcond : ¬ (ts.status = "completed" ∨ ts.status = "failed") := by
      rintro (h' | h')
      · exact h1 h'
      · exact h2 h'
    refine ⟨?_, ?_⟩
    · simp [cancelTask, h, hcond]
    · simp [cancelTask, h, hcond, getTaskStatus, AList.find_store_self]

/-- Witness for C6 at concrete inputs. -/
theorem claim_C6_witness :
    cancelTask Sys.init "nope" = (Sys.init, .error ErrTaskNotFound) ∧
    (cancelTask c6WitSys "t1").2 = .ok () ∧
    getTaskStatus (cancelTask c6WitSys "t1").1 "t1" =
      .ok { pendingTs with status := "cancelled", endTime := some 0 } :=
  ⟨(claim_C6 Sys.init "nope").1 rfl,
   ((claim_C6 c6WitSys "t1").2.2 pendingTs rfl (by decide) (by decide)).1,
   ((claim_C6 c6WitSys "t1").2.2 pendingTs rfl (by decide) (by decide)).2⟩

end Aegis

namespace Aegis

/-- Claim C7 (confirmed): for any state in which the agent is registered
with an open stop channel (as `CreateAgent` leaves it), the first
`DestroyAgent` succeeds without panicking, removes the agent record and
closes/removes its event channel; the second call returns
`AgentNotFound`, also without panicking — the channels are never closed
twice because the second call returns before reaching them. -/
theorem claim_C7 (st : Sys) (agentID : String) (a : AgentRec)
    (hfind : AList.find st.agents agentID = some a)
    (hstop : a.stopChClosed = false) :
    (destroyAgent st agentID).2.1 = .ok () ∧
    (destroyAgent st agentID).2.2 = false ∧
    AList.find (destroyAgent st agentID).1.agents agentID = none ∧
    AList.find (destroyAgent st agentID).1.events agentID = none ∧
    destroyAgent (destroyAgent st agentID).1 agentID =
      ((destroyAgent st agentID).1, .error ErrAgentNotFound, false) := by
  rcases hev : AList.find st.events agentID with _ | buf
  · refine ⟨?_, ?_, ?_, ?_, ?_⟩ <;>
      simp [destroyAgent, hfind, hstop, hev, AList.find_remove_self]
  · refine ⟨?_, ?_, ?_, ?_, ?_⟩ <;>
      simp [destroyAgent, hfind, hstop, hev, AList.find_remove_self]

/-- Witness for C7: destroying the freshly created agent `a1` twice. -/
theorem claim_C7_witness :
    (destroyAgent oneAgentSys "a1").2.1 = .ok () ∧
    (destroyAgent oneAgentSys "a1").2.2 = false ∧
    AList.find (destroyAgent oneAgentSys "a1").1.agents "a1" = none ∧
    AList.find (destroyAgent oneAgentSys "a1").1.events "a1" = none ∧
    destroyAgent (destroyAgent oneAgentSys "a1").1 "a1" =
      ((destroyAgent oneAgentSys "a1").1, .error ErrAgentNotFound, false) :=
  claim_C7 oneAgentSys "a1" agentA rfl rfl

/-- Claim C10 (confirmed): the handler parameter checks are
type-assertion based, so a present-but-wrongly-typed parameter is
reported exactly like an absent one: whenever the `conversation`
parameters hold no string under `input`, `handleConversation` returns
the zero Result with error `missing required parameter: input`;
whenever the `research` parameters hold no `[]string` under `topics`
(e.g. a list of any other element type), `handleResearch` returns the
same `missing`-style error naming `topics`. -/
theorem claim_C10 (t1 t2 : Task) (now1 now2 : Nat)
    (h1 : ∀ s, AList.find t1.parameters "input" ≠ some (Value.str s))
    (h2 : ∀ xs, AList.find t2.parameters "topics" ≠ some (Value.strList xs)) :
    handleConversation t1 now1 = .error "missing required parameter: input" ∧
    handleResearch t2 now2 = .error "missing required parameter: topics" := by
  constructor
  · unfold handleConversation getParam
    rcases hf : AList.find t1.parameters "input" with _ | v
    · simp [Value.asString]
    · cases v with
      | str s => exact absurd hf (h1 s)
      | _ => simp [Value.asString]
  · unfold handleResearch getParam
    rcases hf : AList.find t2.parameters "topics" with _ | v
    · simp [Value.asStrList]
    · cases v with
      | strList xs => exact absurd hf (h2 xs)
      | _ => simp [Value.asStrList]

/-- Witness for C10: `input` present as an int, `topics` present as a
heterogeneous list. -/
theorem claim_C10_witness :
    handleConversation wrongInputTask 0 = .error "missing required parameter: input" ∧
    handleResearch wrongTopicsTask 0 = .error "missing required parameter: topics" :=
  claim_C10 wrongInputTask wrongTopicsTask 0 0
    (fun _ h => Value.noConfusion (Option.some.inj h))
    (fun _ h => Value.noConfusion (Option.some.inj h))

end Aegis

namespace Aegis

/-- When every referenced tool resolves, `getTools` succeeds with the
resolved ids in declaration order. -/
theorem getTools_ok (collab : Collab) (tcs : List ToolConfig)
    (h : ∀ tc ∈ tcs, collab.getTool tc.id = .ok ()) :
    getTools collab tcs = .ok (tcs.map ToolConfig.id) := by
  induction tcs with
  | nil => simp [getTools]
  | cons tc rest ih =>
      have h1 : collab.getTool tc.id = .ok () := h tc (by simp)
      have h2 : ∀ x ∈ rest, collab.getTool x.id = .ok () :=
        fun x hx => h x (by simp [hx])
      simp [getTools, h1, ih h2]

/-- A generated UUID string is never empty. -/
theorem uuid_ne_empty (n : Nat) : "uuid-" ++ toString n ≠ "" := by
  intro h
  have hlen := congrArg String.length h
  simp [String.length_append] at hlen
  exact absurd hlen.1 (by decide)

/-- Claim C8 (confirmed): `CreateAgent` with an empty `Name` fails with
`InvalidConfig` and returns no agent; with a non-empty `Name` and all
collaborator resolutions succeeding it returns a handle whose
`Status().ID` is non-empty — equal to `config.ID` when given, a freshly
generated UUID otherwise — and whose initial status is `ready`, which is
none of the terminal task states. -/
theorem claim_C8 (st : Sys) (collab : Collab) (config : AgentConfig) :
    (config.name = "" →
      (createAgent st collab config).2 = .error ErrInvalidConfig) ∧
    (config.name ≠ "" → collab.memoryStore = .ok () → collab.knowledgeCtx = .ok () →
      (∀ tc ∈ config.tools, collab.getTool tc.id = .ok ()) →
      ∃ a, (createAgent st collab config).2 = .ok a ∧
        a.status.id = (if config.id = ""
                       then "uuid-" ++ toString st.uuidCtr else config.id) ∧
        a.status.id ≠ "" ∧
        a.status.status = "ready" ∧
        a.status.status ≠ "completed" ∧ a.status.status ≠ "failed" ∧
        a.status.status ≠ "cancelled") := by
  constructor
  · intro hname
    by_cases hid : config.id = "" <;>
      simp [createAgent, freshUUID, hid, validateConfig, hname]
  · intro hname hm hk htools
    have hg := getTools_ok collab config.tools htools
    by_cases hid : config.id = ""
    · refine ⟨mkAgentRec ("uuid-" ++ toString st.uuidCtr) config,
        ?_, ?_, ?_, ?_, ?_, ?_, ?_⟩
      · simp [createAgent, freshUUID, hid, validateConfig, hname, hm, hk, hg,
              recordEvent, emitEvent, mkAgentRec]
      all_goals simp [mkAgentRec, hid, uuid_ne_empty]
    · refine ⟨mkAgentRec config.id config, ?_, ?_, ?_, ?_, ?_, ?_, ?_⟩
      · simp [createAgent, freshUUID, hid, validateConfig, hname, hm, hk, hg,
              recordEvent, emitEvent, mkAgentRec]
      all_goals simp [mkAgentRec, hid]

end Aegis

namespace Aegis

/-- Witness for C8: an empty name is rejected; `cfgA` yields a live
handle with id `a1` and status `ready`. -/
theorem claim_C8_witness :
    (createAgent Sys.init Collab.allOk { name := "" }).2 = .error ErrInvalidConfig ∧
    (∃ a, (createAgent Sys.init Collab.allOk cfgA).2 = .ok a ∧
      a.status.id = (if cfgA.id = ""
                     then "uuid-" ++ toString Sys.init.uuidCtr else cfgA.id) ∧
      a.status.id ≠ "" ∧
      a.status.status = "ready" ∧
      a.status.status ≠ "completed" ∧ a.status.status ≠ "failed" ∧
      a.status.status ≠ "cancelled") :=
  ⟨(claim_C8 Sys.init Collab.allOk { name := "" }).1 rfl,
   (claim_C8 Sys.init Collab.allOk cfgA).2 (by decide) rfl rfl
     (by intro tc h; simp [cfgA] at h)⟩

/-- Claim C9 (confirmed): whenever `CreateAgent` returns an error (empty
name, memory-store failure, knowledge-context failure, or an unresolved
tool), the manager's observable state is untouched: agents, events,
tasks and the stdout log are unchanged, no `agent_created` is emitted,
and for any id that had no agent before, `GetAgentStatus` and
`SubscribeToEvents` still fail with `AgentNotFound`. -/
theorem claim_C9 (st : Sys) (collab : Collab) (config : AgentConfig) (e : String)
    (herr : (createAgent st collab config).2 = .error e) :
    (createAgent st collab config).1.agents = st.agents ∧
    (createAgent st collab config).1.events = st.events ∧
    (createAgent st collab config).1.tasks = st.tasks ∧
    (createAgent st collab config).1.printed = st.printed ∧
    (∀ id, AList.find st.agents id = none →
      getAgentStatus (createAgent st collab config).1 id = .error ErrAgentNotFound) ∧
    (∀ id, AList.find st.events id = none →
      subscribeToEvents (createAgent st collab config).1 id = .error ErrAgentNotFound) := by
  have hmain : (createAgent st collab config).1.agents = st.agents ∧
      (createAgent st collab config).1.events = st.events ∧
      (createAgent st collab config).1.tasks = st.tasks ∧
      (createAgent st collab config).1.printed = st.printed := by
    by_cases hname : config.name = ""
    · by_cases hid : config.id = "" <;>
        simp [createAgent, freshUUID, hid, validateConfig, hname]
    · rcases hm : collab.memoryStore with em | um
      · by_cases hid : config.id = "" <;>
          simp [createAgent, freshUUID, hid, validateConfig, hname, hm]
      · rcases hk : collab.knowledgeCtx with ek | uk
        · by_cases hid : config.id = "" <;>
            simp [createAgent, freshUUID, hid, validateConfig, hname, hm, hk]
        · rcases hg : getTools collab config.tools with eg | ids
          · by_cases hid : config.id = "" <;>
              simp [createAgent, freshUUID, hid, validateConfig, hname, hm, hk, hg]
          · exfalso
            by_cases hid : config.id = "" <;>
              simp [createAgent, freshUUID, hid, validateConfig, hname, hm, hk, hg,
                    recordEvent, emitEvent] at herr
  refine ⟨hmain.1, hmain.2.1, hmain.2.2.1, hmain.2.2.2, ?_, ?_⟩
  · intro id hfind
    simp [getAgentStatus, hmain.1, hfind]
  · intro id hfind
    simp [subscribeToEvents, hmain.2.1, hfind]

/-- Witness for C9: a failing memory-store factory leaves the manager
registries empty. -/
theorem claim_C9_witness :
    (createAgent Sys.init memFailCollab cfgA).1.agents = Sys.init.agents ∧
    (createAgent Sys.init memFailCollab cfgA).1.events = Sys.init.events ∧
    (createAgent Sys.init memFailCollab cfgA).1.tasks = Sys.init.tasks ∧
    (createAgent Sys.init memFailCollab cfgA).1.printed = Sys.init.printed ∧
    (∀ id, AList.find Sys.init.agents id = none →
      getAgentStatus (createAgent Sys.init memFailCollab cfgA).1 id
        = .error ErrAgentNotFound) ∧
    (∀ id, AList.find Sys.init.events id = none →
      subscribeToEvents (createAgent Sys.init memFailCollab cfgA).1 id
        = .error ErrAgentNotFound) :=
  claim_C9 Sys.init memFailCollab cfgA "failed to create memory store: boom" rfl

end Aegis

namespace Aegis

/-! ### Field-effect lemmas: which parts of `Sys` each operation touches -/

theorem emitEvent_tasks (st : Sys) (aid : String) (ev : Event) :
    (emitEvent st aid ev).tasks = st.tasks := by
  rcases h : AList.find st.events aid with _ | buf
  · simp [emitEvent, h]
  · by_cases hb : buf.length < eventChanCapacity <;> simp [emitEvent, h, hb]

theorem emitEvent_threads (st : Sys) (aid : String) (ev : Event) :
    (emitEvent st aid ev).threads = st.threads := by
  rcases h : AList.find st.events aid with _ | buf
  · simp [emitEvent, h]
  · by_cases hb : buf.length < eventChanCapacity <;> simp [emitEvent, h, hb]

theorem recordEvent_tasks (st : Sys) (aid ty : String) (d : Value) :
    (recordEvent st aid ty d).tasks = st.tasks := by
  by_cases h : aid = "" <;> simp [recordEvent, freshUUID, h]

theorem recordEvent_threads (st : Sys) (aid ty : String) (d : Value) :
    (recordEvent st aid ty d).threads = st.threads := by
  by_cases h : aid = "" <;> simp [recordEvent, freshUUID, h]

theorem recordEvent_now (st : Sys) (aid ty : String) (d : Value) :
    (recordEvent st aid ty d).now = st.now := by
  by_cases h : aid = "" <;> simp [recordEvent, freshUUID, h]

theorem createAgent_tasks_threads (st : Sys) (collab : Collab) (config : AgentConfig) :
    (createAgent st collab config).1.tasks = st.tasks ∧
    (createAgent st collab config).1.threads = st.threads := by
  by_cases hname : config.name = ""
  · by_cases hid : config.id = "" <;>
      simp [createAgent, freshUUID, hid, validateConfig, hname]
  · rcases hm : collab.memoryStore with em | um
    · by_cases hid : config.id = "" <;>
        simp [createAgent, freshUUID, hid, validateConfig, hname, hm]
    · rcases hk : collab.knowledgeCtx with ek | uk
      · by_cases hid : config.id = "" <;>
          simp [createAgent, freshUUID, hid, validateConfig, hname, hm, hk]
      · rcases hg : getTools collab config.tools with eg | ids
        · by_cases hid : config.id = "" <;>
            simp [createAgent, freshUUID, hid, validateConfig, hname, hm, hk, hg]
        · by_cases hid : config.id = "" <;>
            simp [createAgent, freshUUID, hid, validateConfig, hname, hm, hk, hg,
                  emitEvent_tasks, emitEvent_threads, recordEvent_tasks,
                  recordEvent_threads]

theorem destroyAgent_tasks_threads (st : Sys) (aid : String) :
    (destroyAgent st aid).1.tasks = st.tasks ∧
    (destroyAgent st aid).1.threads = st.threads := by
  rcases h : AList.find st.agents aid with _ | a
  · simp [destroyAgent, h]
  · by_cases hs : a.stopChClosed
    · simp [destroyAgent, h, hs]
    · rcases he : AList.find st.events aid with _ | buf <;>
        simp [destroyAgent, h, hs, he]

theorem workerStep_tasks_threads (st : Sys) (aid : String) :
    (workerStep st aid).tasks = st.tasks ∧
    (workerStep st aid).threads = st.threads := by
  rcases h : AList.find st.agents aid with _ | a
  · simp [workerStep, h]
  · by_cases hs : a.stopChClosed
    · simp [workerStep, h, hs]
    · rcases hq : a.queue with _ | ⟨task, rest⟩
      · simp [workerStep, h, hs, hq]
      · simp only [workerStep, h, hs, hq, Bool.false_eq_true, if_false,
          recordEvent_now]
        rcases hex : executeTask task st.now with e | res <;>
          simp [hex, recordEvent_tasks, recordEvent_threads]

theorem stepThread_none (st : Sys) (tid : Nat)
    (h : st.threads[tid]? = none) : stepThread st tid = st := by
  simp [stepThread, h]

theorem stepThread_pc0 (st : Sys) (tid : Nat) (th : GoThread)
    (hth : st.threads[tid]? = some th) (hpc : th.pc = 0) :
    (stepThread st tid).tasks =
      AList.store st.tasks th.task.id { th.localStatus with status := "running" } ∧
    (stepThread st tid).threads =
      st.threads.set tid
        { th with pc := 1, localStatus := { th.localStatus with status := "running" } } := by
  rcases hag : AList.find st.agents th.agentID with _ | a <;>
    simp [stepThread, hth, hpc, hag]

theorem stepThread_pc1 (st : Sys) (tid : Nat) (th : GoThread)
    (hth : st.threads[tid]? = some th) (hpc : th.pc = 1) :
    (stepThread st tid).tasks = st.tasks ∧
    ∃ th', (stepThread st tid).threads = st.threads.set tid th' ∧
      th'.task = th.task ∧ th'.pc = 2 := by
  rcases hag : AList.find st.agents th.agentID with _ | a
  · refine ⟨by simp [stepThread, hth, hpc, hag], { th with pc := 2, execResult := some (placeholderResult th.task.id st.now) }, by simp [stepThread, hth, hpc, hag], rfl, rfl⟩
  · rcases he : enqueueTask a.queue th.task with e | q
    · refine ⟨by simp [stepThread, hth, hpc, hag, agentExecute, he], { th with pc := 2, execError := some e }, by simp [stepThread, hth, hpc, hag, agentExecute, he], rfl, rfl⟩
    · refine ⟨by simp [stepThread, hth, hpc, hag, agentExecute, he], { th with pc := 2, execResult := some (placeholderResult th.task.id st.now) }, by simp [stepThread, hth, hpc, hag, agentExecute, he], rfl, rfl⟩

theorem stepThread_pc2 (st : Sys) (tid : Nat) (th : GoThread)
    (hth : st.threads[tid]? = some th) (hpc : th.pc = 2) :
    ∃ ls : TaskStatus, (ls.status = "failed" ∨ ls.status = "completed") ∧
      (stepThread st tid).tasks = AList.store st.tasks th.task.id ls ∧
      (stepThread st tid).threads =
        st.threads.set tid { th with pc := 3, localStatus := ls } := by
  rcases her : th.execError with _ | e
  · refine ⟨{ th.localStatus with status := "completed", result := some (th.execResult.getD (placeholderResult th.task.id st.now)), progress := 1, endTime := some st.now }, Or.inr rfl, ?_, ?_⟩ <;>
      simp [stepThread, hth, hpc, her, emitEvent_tasks, emitEvent_threads, freshUUID]
  · refine ⟨{ th.localStatus with status := "failed", error := some e, endTime := some st.now }, Or.inl rfl, ?_, ?_⟩ <;>
      simp [stepThread, hth, hpc, her, emitEvent_tasks, emitEvent_threads, freshUUID]

theorem stepThread_pc3 (st : Sys) (tid : Nat) (th : GoThread)
    (hth : st.threads[tid]? = some th) (hpc : th.pc = 3) :
    (stepThread st tid).tasks = st.tasks ∧
    (stepThread st tid).threads = st.threads.set tid { th with pc := 4 } := by
  rcases hag : AList.find st.agents th.agentID with _ | a <;>
    simp [stepThread, hth, hpc, hag]

theorem stepThread_pc_ge4 (st : Sys) (tid : Nat) (th : GoThread)
    (hth : st.threads[tid]? = some th) (hpc : 4 ≤ th.pc) :
    stepThread st tid = st := by
  rcases th with ⟨aid, task, pc, ls, ee, er⟩
  rcases pc with _ | _ | _ | _ | n
  · simp at hpc
  · simp at hpc
  · simp at hpc
  · simp at hpc
  · simp [stepThread, hth]

end Aegis

namespace Aegis

/-! ### List helpers for the invariant proof -/

theorem nodup_getElem?_inj {β : Type} {l : List β} (hnd : l.Nodup) {i j : Nat} {a : β}
    (hi : l[i]? = some a) (hj : l[j]? = some a) : i = j := by
  rcases List.getElem?_eq_some_iff.1 hi with ⟨hi1, hi2⟩
  rcases List.getElem?_eq_some_iff.1 hj with ⟨hj1, hj2⟩
  exact (List.Nodup.getElem_inj_iff hnd).1 (by rw [hi2, hj2])

theorem map_nodup_getElem?_ne {α β : Type} (f : α → β) (l : List α)
    (hnd : (l.map f).Nodup) {i j : Nat} {x y : α}
    (hi : l[i]? = some x) (hj : l[j]? = some y) (hij : i ≠ j) : f x ≠ f y := by
  intro hf
  have hi' : (l.map f)[i]? = some (f x) := by simp [hi]
  have hj' : (l.map f)[j]? = some (f y) := by simp [hj]
  rw [hf] at hi'
  exact hij (nodup_getElem?_inj hnd hi' hj')

theorem map_taskId_set (l : List GoThread) (i : Nat) (th th' : GoThread)
    (h : l[i]? = some th) (hid : th'.task.id = th.task.id) :
    (l.set i th').map (fun x => x.task.id) = l.map (fun x => x.task.id) := by
  induction l generalizing i with
  | nil => simp at h
  | cons x xs ih =>
      rcases i with _ | i
      · simp at h
        subst h
        simp [hid]
      · simp only [List.set_cons_succ, List.map_cons]
        rw [ih i (by simpa using h)]

end Aegis

namespace Aegis

/-- The invariant only inspects `tasks` and `threads`. -/
theorem Inv.of_eq {st st' : Sys} {assigned : List String} (hinv : Inv st assigned)
    (hT : st'.tasks = st.tasks) (hTh : st'.threads = st.threads) :
    Inv st' assigned := by
  refine ⟨?_, ?_, ?_⟩
  · rw [hTh]; exact hinv.threadIds
  · intro id hid; rw [hT]; exact hinv.taskKeys id hid
  · intro i th hth ts hts hterm
    rw [hTh] at hth; rw [hT] at hts
    exact hinv.terminalPc i th hth ts hts hterm

/-- The invariant is monotone in the submitted-id list. -/
theorem Inv.weaken {st : Sys} {assigned : List String} (hinv : Inv st assigned)
    (l : List String) : Inv st (assigned ++ l) := by
  refine ⟨hinv.threadIds.trans (List.sublist_append_left _ _), ?_, hinv.terminalPc⟩
  intro id hid
  exact hinv.taskKeys id (fun hm => hid (List.mem_append_left _ hm))

end Aegis

namespace Aegis

/-- One scheduled action preserves the invariant (given the spec's
unique-task-id side condition) and never changes a task record that is
already `completed` or `failed`. -/
theorem step_preserves (st : Sys) (assigned : List String) (act : Action)
    (hnd : assigned.Nodup) (hinv : Inv st assigned) (hok : actionOK act assigned) :
    Inv (stepAction st act) (assigned ++ assignedIds [act]) ∧
    (∀ id ts, AList.find st.tasks id = some ts →
      ts.status = "completed" ∨ ts.status = "failed" →
      AList.find (stepAction st act).tasks id = some ts) := by
  have hmem : ∀ {id : String} {ts : TaskStatus},
      AList.find st.tasks id = some ts → id ∈ assigned := by
    intro id ts h
    by_contra hn
    rw [hinv.taskKeys id hn] at h
    exact Option.noConfusion h
  have hthmem : ∀ {i : Nat} {th : GoThread}, st.threads[i]? = some th →
      th.task.id ∈ assigned := by
    intro i th h
    exact hinv.threadIds.subset (List.mem_map_of_mem _ (List.getElem?_mem h))
  cases act with
  | createAgent config =>
      have hA : assigned ++ assignedIds [Action.createAgent config] = assigned := by
        simp [assignedIds]
      rw [hA]
      obtain ⟨hT, hTh⟩ :=
        createAgent_tasks_threads { st with now := st.now + 1 } Collab.allOk config
      have hT' : (stepAction st (Action.createAgent config)).tasks = st.tasks := by
        simpa [stepAction] using hT
      have hTh' : (stepAction st (Action.createAgent config)).threads = st.threads := by
        simpa [stepAction] using hTh
      exact ⟨hinv.of_eq hT' hTh', fun id ts h _ => by rw [hT']; exact h⟩
  | destroyAgent aid =>
      have hA : assigned ++ assignedIds [Action.destroyAgent aid] = assigned := by
        simp [assignedIds]
      rw [hA]
      obtain ⟨hT, hTh⟩ := destroyAgent_tasks_threads { st with now := st.now + 1 } aid
      have hT' : (stepAction st (Action.destroyAgent aid)).tasks = st.tasks := by
        simpa [stepAction] using hT
      have hTh' : (stepAction st (Action.destroyAgent aid)).threads = st.threads := by
        simpa [stepAction] using hTh
      exact ⟨hinv.of_eq hT' hTh', fun id ts h _ => by rw [hT']; exact h⟩
  | workerStep aid =>
      have hA : assigned ++ assignedIds [Action.workerStep aid] = assigned := by
        simp [assignedIds]
      rw [hA]
      obtain ⟨hT, hTh⟩ := workerStep_tasks_threads { st with now := st.now + 1 } aid
      have hT' : (stepAction st (Action.workerStep aid)).tasks = st.tasks := by
        simpa [stepAction] using hT
      have hTh' : (stepAction st (Action.workerStep aid)).threads = st.threads := by
        simpa [stepAction] using hTh
      exact ⟨hinv.of_eq hT' hTh', fun id ts h _ => by rw [hT']; exact h⟩
  | cancelTask tid =>
      have hA : assigned ++ assignedIds [Action.cancelTask tid] = assigned := by
        simp [assignedIds]
      rw [hA]
      rcases hf : AList.find st.tasks tid with _ | ts0
      · have hfix : stepAction st (Action.cancelTask tid) = { st with now := st.now + 1 } := by
          simp [stepAction, cancelTask, hf]
        rw [hfix]
        exact ⟨hinv.of_eq rfl rfl, fun id ts h _ => h⟩
      · by_cases ht0 : ts0.status = "completed" ∨ ts0.status = "failed"
        · have hfix : stepAction st (Action.cancelTask tid) = { st with now := st.now + 1 } := by
            rcases ht0 with h' | h' <;> simp [stepAction, cancelTask, hf, h']
          rw [hfix]
          exact ⟨hinv.of_eq rfl rfl, fun id ts h _ => h⟩
        · have hT' : (stepAction st (Action.cancelTask tid)).tasks
              = AList.store st.tasks tid { ts0 with status := "cancelled", endTime := some (st.now + 1) } := by
            simp [stepAction, cancelTask, hf, ht0]
          have hTh' : (stepAction st (Action.cancelTask tid)).threads = st.threads := by
            simp [stepAction, cancelTask, hf, ht0]
          have htid : tid ∈ assigned := hmem hf
          constructor
          · refine ⟨?_, ?_, ?_⟩
            · rw [hTh']
              exact hinv.threadIds
            · intro id hid
              have hqq : id ≠ tid := fun he => hid (by rw [he]; exact htid)
              rw [hT', AList.find_store_ne _ _ _ _ hqq]
              exact hinv.taskKeys id hid
            · intro i th hth ts hts hterm
              rw [hTh'] at hth
              rw [hT'] at hts
              by_cases hq : th.task.id = tid
              · rw [hq, AList.find_store_self] at hts
                cases hts
                rcases hterm with h' | h'
                · exact ((by decide : ¬("cancelled" = "completed")) h').elim
                · exact ((by decide : ¬("cancelled" = "failed")) h').elim
              · rw [AList.find_store_ne _ _ _ _ hq] at hts
                exact hinv.terminalPc i th hth ts hts hterm
          · intro id ts h hterm
            by_cases hq : id = tid
            · subst hq
              rw [hf] at h
              cases h
              exact absurd hterm ht0
            · rw [hT', AList.find_store_ne _ _ _ _ hq]
              exact h
  | assignTask aid task =>
      rcases hok with ⟨hne, hnin⟩
      have hA : assignedIds [Action.assignTask aid task] = [task.id] := by
        simp [assignedIds]
      rw [hA]
      rcases hf : AList.find st.agents aid with _ | a
      · have hfix : stepAction st (Action.assignTask aid task) = { st with now := st.now + 1, assignRets := st.assignRets ++ [Except.error ErrAgentNotFound] } := by
          simp [stepAction, assignTask, hf]
        rw [hfix]
        refine ⟨Inv.weaken (Inv.of_eq hinv ?_ ?_) [task.id], fun id ts h _ => h⟩ <;> rfl
      · have hT' : (stepAction st (Action.assignTask aid task)).tasks
            = AList.store st.tasks task.id (initialTaskStatus task.id (st.now + 1)) := by
          simp [stepAction, assignTask, hf, hne, freshUUID, emitEvent_tasks]
        have hTh' : (stepAction st (Action.assignTask aid task)).threads
            = st.threads ++ [spawnGoThread aid task (initialTaskStatus task.id (st.now + 1))] := by
          simp [stepAction, assignTask, hf, hne, freshUUID, emitEvent_threads]
        constructor
        · refine ⟨?_, ?_, ?_⟩
          · rw [hTh']
            have hmap : (st.threads ++ [spawnGoThread aid task (initialTaskStatus task.id (st.now + 1))]).map (fun x => x.task.id) = st.threads.map (fun x => x.task.id) ++ [task.id] := by
              simp [spawnGoThread]
            rw [hmap]
            exact hinv.threadIds.append (List.Sublist.refl _)
          · intro id hid
            simp only [List.mem_append, List.mem_singleton, not_or] at hid
            rw [hT', AList.find_store_ne _ _ _ _ hid.2]
            exact hinv.taskKeys id hid.1
          · intro i th hth ts hts hterm
            rw [hTh'] at hth
            rw [hT'] at hts
            by_cases hi : i < st.threads.length
            · rw [List.getElem?_append_left hi] at hth
              have hqq : th.task.id ≠ task.id := by
                intro he
                exact hnin (by rw [← he]; exact hthmem hth)
              rw [AList.find_store_ne _ _ _ _ hqq] at hts
              exact hinv.terminalPc i th hth ts hts hterm
            · rw [List.getElem?_append_right (Nat.le_of_not_lt hi)] at hth
              rcases hd : i - st.threads.length with _ | k
              · rw [hd] at hth
                simp only [List.getElem?_cons_zero] at hth
                cases hth
                have hts2 : AList.find (AList.store st.tasks task.id (initialTaskStatus task.id (st.now + 1))) task.id = some ts := hts
                rw [AList.find_store_self] at hts2
                cases hts2
                rcases hterm with h' | h'
                · exact ((by decide : ¬("pending" = "completed")) h').elim
                · exact ((by decide : ¬("pending" = "failed")) h').elim
              · rw [hd] at hth
                simp at hth
        · intro id ts h hterm
          have hqq : id ≠ task.id := fun he => hnin (by rw [← he]; exact hmem h)
          rw [hT', AList.find_store_ne _ _ _ _ hqq]
          exact h
  | goStep tid =>
      have hA : assigned ++ assignedIds [Action.goStep tid] = assigned := by
        simp [assignedIds]
      rw [hA]
      have hstep : stepAction st (Action.goStep tid)
          = stepThread { st with now := st.now + 1 } tid := by
        simp [stepAction]
      rcases hth0 : st.threads[tid]? with _ | th
      · have hfix : stepThread { st with now := st.now + 1 } tid = { st with now := st.now + 1 } :=
          stepThread_none _ _ (by simpa using hth0)
        rw [hstep, hfix]
        exact ⟨hinv.of_eq rfl rfl, fun id ts h _ => h⟩
      · have hth1 : ({ st with now := st.now + 1 } : Sys).threads[tid]? = some th := by
          simpa using hth0
        have htidlen : tid < st.threads.length := by
          rcases List.getElem?_eq_some_iff.1 hth0 with ⟨hl, _⟩
          exact hl
        by_cases h0 : th.pc = 0
        · obtain ⟨hT1, hTh1⟩ := stepThread_pc0 _ tid th hth1 h0
          rw [hstep]
          have hT' : (stepThread { st with now := st.now + 1 } tid).tasks
              = AList.store st.tasks th.task.id { th.localStatus with status := "running" } := hT1
          have hTh' : (stepThread { st with now := st.now + 1 } tid).threads
              = st.threads.set tid { th with pc := 1, localStatus := { th.localStatus with status := "running" } } := hTh1
          constructor
          · refine ⟨?_, ?_, ?_⟩
            · rw [hTh', map_taskId_set st.threads tid th { th with pc := 1, localStatus := { th.localStatus with status := "running" } } hth0 rfl]
              exact hinv.threadIds
            · intro id hid
              have hqq : id ≠ th.task.id := fun he => hid (by rw [he]; exact hthmem hth0)
              rw [hT', AList.find_store_ne _ _ _ _ hqq]
              exact hinv.taskKeys id hid
            · intro i th' hth' ts hts hterm
              rw [hT'] at hts
              rw [hTh'] at hth'
              by_cases hit : i = tid
              · subst hit
                rw [List.getElem?_set_self htidlen] at hth'
                cases hth'
                have hts2 : AList.find (AList.store st.tasks th.task.id { th.localStatus with status := "running" }) th.task.id = some ts := hts
                rw [AList.find_store_self] at hts2
                cases hts2
                rcases hterm with h' | h'
                · exact ((by decide : ¬("running" = "completed")) h').elim
                · exact ((by decide : ¬("running" = "failed")) h').elim
              · rw [List.getElem?_set_ne (fun he => hit he.symm)] at hth'
                by_cases hq : th'.task.id = th.task.id
                · rw [hq] at hts
                  rw [AList.find_store_self] at hts
                  cases hts
                  rcases hterm with h' | h'
                  · exact ((by decide : ¬("running" = "completed")) h').elim
                  · exact ((by decide : ¬("running" = "failed")) h').elim
                · rw [AList.find_store_ne _ _ _ _ hq] at hts
                  exact hinv.terminalPc i th' hth' ts hts hterm
          · intro id ts h hterm
            have hqq : id ≠ th.task.id := by
              intro he
              have h3 := hinv.terminalPc tid th hth0 ts (by rw [← he]; exact h) hterm
              omega
            rw [hT', AList.find_store_ne _ _ _ _ hqq]
            exact h
        · by_cases h1 : th.pc = 1
          · obtain ⟨hT1, th2, hTh1, hteq, hpc2⟩ := stepThread_pc1 _ tid th hth1 h1
            rw [hstep]
            have hT' : (stepThread { st with now := st.now + 1 } tid).tasks = st.tasks := hT1
            have hTh' : (stepThread { st with now := st.now + 1 } tid).threads
                = st.threads.set tid th2 := hTh1
            have hid2 : th2.task.id = th.task.id := by rw [hteq]
            constructor
            · refine ⟨?_, ?_, ?_⟩
              · rw [hTh', map_taskId_set _ _ _ _ hth0 hid2]
                exact hinv.threadIds
              · intro id hid
                rw [hT']
                exact hinv.taskKeys id hid
              · intro i th' hth' ts hts hterm
                rw [hT'] at hts
                rw [hTh'] at hth'
                by_cases hit : i = tid
                · subst hit
                  rw [List.getElem?_set_self htidlen] at hth'
                  cases hth'
                  have h3 := hinv.terminalPc _ th hth0 ts (by rw [← hid2]; exact hts) hterm
                  omega
                · rw [List.getElem?_set_ne (fun he => hit he.symm)] at hth'
                  exact hinv.terminalPc i th' hth' ts hts hterm
            · intro id ts h hterm
              rw [hT']
              exact h
          · by_cases h2 : th.pc = 2
            · obtain ⟨ls, hls, hT1, hTh1⟩ := stepThread_pc2 _ tid th hth1 h2
              rw [hstep]
              have hT' : (stepThread { st with now := st.now + 1 } tid).tasks
                  = AList.store st.tasks th.task.id ls := hT1
              have hTh' : (stepThread { st with now := st.now + 1 } tid).threads
                  = st.threads.set tid { th with pc := 3, localStatus := ls } := hTh1
              have hthnd : (st.threads.map (fun x => x.task.id)).Nodup :=
                hinv.threadIds.nodup hnd
              constructor
              · refine ⟨?_, ?_, ?_⟩
                · rw [hTh', map_taskId_set st.threads tid th { th with pc := 3, localStatus := ls } hth0 rfl]
                  exact hinv.threadIds
                · intro id hid
                  have hqq : id ≠ th.task.id := fun he => hid (by rw [he]; exact hthmem hth0)
                  rw [hT', AList.find_store_ne _ _ _ _ hqq]
                  exact hinv.taskKeys id hid
                · intro i th' hth' ts hts hterm
                  rw [hT'] at hts
                  rw [hTh'] at hth'
                  by_cases hit : i = tid
                  · subst hit
                    rw [List.getElem?_set_self htidlen] at hth'
                    cases hth'
                    simp
                  · rw [List.getElem?_set_ne (fun he => hit he.symm)] at hth'
                    by_cases hq : th'.task.id = th.task.id
                    · exact absurd hq (map_nodup_getElem?_ne _ _ hthnd hth' hth0 hit)
                    · rw [AList.find_store_ne _ _ _ _ hq] at hts
                      exact hinv.terminalPc i th' hth' ts hts hterm
              · intro id ts h hterm
                have hqq : id ≠ th.task.id := by
                  intro he
                  have h3 := hinv.terminalPc tid th hth0 ts (by rw [← he]; exact h) hterm
                  omega
                rw [hT', AList.find_store_ne _ _ _ _ hqq]
                exact h
            · by_cases h3 : th.pc = 3
              · obtain ⟨hT1, hTh1⟩ := stepThread_pc3 _ tid th hth1 h3
                rw [hstep]
                have hT' : (stepThread { st with now := st.now + 1 } tid).tasks = st.tasks := hT1
                have hTh' : (stepThread { st with now := st.now + 1 } tid).threads
                    = st.threads.set tid { th with pc := 4 } := hTh1
                constructor
                · refine ⟨?_, ?_, ?_⟩
                  · rw [hTh', map_taskId_set st.threads tid th { th with pc := 4 } hth0 rfl]
                    exact hinv.threadIds
                  · intro id hid
                    rw [hT']
                    exact hinv.taskKeys id hid
                  · intro i th' hth' ts hts hterm
                    rw [hT'] at hts
                    rw [hTh'] at hth'
                    by_cases hit : i = tid
                    · subst hit
                      rw [List.getElem?_set_self htidlen] at hth'
                      cases hth'
                      simp
                    · rw [List.getElem?_set_ne (fun he => hit he.symm)] at hth'
                      exact hinv.terminalPc i th' hth' ts hts hterm
                · intro id ts h hterm
                  rw [hT']
                  exact h
              · have h4 : 4 ≤ th.pc := by omega
                have hfix := stepThread_pc_ge4 _ tid th hth1 h4
                rw [hstep, hfix]
                exact ⟨hinv.of_eq rfl rfl, fun id ts h _ => h⟩

end Aegis

namespace Aegis

theorem assignedIds_cons (act : Action) (rest : List Action) :
    assignedIds (act :: rest) = assignedIds [act] ++ assignedIds rest := by
  cases act <;> simp [assignedIds]

theorem assignedIds_append (l₁ l₂ : List Action) :
    assignedIds (l₁ ++ l₂) = assignedIds l₁ ++ assignedIds l₂ := by
  induction l₁ with
  | nil => simp [assignedIds]
  | cons a l ih => cases a <;> simp [assignedIds, ih]

theorem actionOK_of_nodup (act : Action) (rest : List Action) (assigned : List String)
    (hnd : (assigned ++ assignedIds (act :: rest)).Nodup)
    (hne : "" ∉ assignedIds (act :: rest)) :
    actionOK act assigned := by
  cases act with
  | assignTask aid task =>
      refine ⟨?_, ?_⟩
      · intro h0
        exact hne (by rw [← h0]; simp [assignedIds])
      · intro hmem
        rw [show assignedIds (Action.assignTask aid task :: rest)
              = task.id :: assignedIds rest from by simp [assignedIds]] at hnd
        have hdisj := (List.nodup_append.1 hnd).2.2
        exact hdisj hmem (by simp)
  | createAgent c => trivial
  | destroyAgent a => trivial
  | cancelTask t => trivial
  | goStep t => trivial
  | workerStep a => trivial

/-- Running a well-formed schedule from an invariant state keeps the
invariant. -/
theorem inv_run_aux (acts : List Action) (st : Sys) (assigned : List String)
    (hinv : Inv st assigned)
    (hnd : (assigned ++ assignedIds acts).Nodup)
    (hne : "" ∉ assignedIds acts) :
    Inv (run st acts) (assigned ++ assignedIds acts) := by
  induction acts generalizing st assigned with
  | nil => simpa [run, assignedIds] using hinv
  | cons act rest ih =>
      have hndL : assigned.Nodup := (List.nodup_append.1 hnd).1
      have hok := actionOK_of_nodup act rest assigned hnd hne
      obtain ⟨hinv', _⟩ := step_preserves st assigned act hndL hinv hok
      have hnd' : ((assigned ++ assignedIds [act]) ++ assignedIds rest).Nodup := by
        rw [List.append_assoc, ← assignedIds_cons]
        exact hnd
      have hne' : "" ∉ assignedIds rest := by
        intro h
        exact hne (by rw [assignedIds_cons]; exact List.mem_append_right _ h)
      have hres := ih (stepAction st act) (assigned ++ assignedIds [act]) hinv' hnd' hne'
      rw [show run st (act :: rest) = run (stepAction st act) rest from rfl]
      rw [assignedIds_cons, ← List.append_assoc]
      exact hres

/-- Running a well-formed schedule never changes a task record that is
already `completed` or `failed`. -/
theorem run_stable_aux (acts : List Action) (st : Sys) (assigned : List String)
    (hinv : Inv st assigned)
    (hnd : (assigned ++ assignedIds acts).Nodup)
    (hne : "" ∉ assignedIds acts)
    (id : String) (ts : TaskStatus)
    (hfind : AList.find st.tasks id = some ts)
    (hterm : ts.status = "completed" ∨ ts.status = "failed") :
    AList.find (run st acts).tasks id = some ts := by
  induction acts generalizing st assigned with
  | nil => simpa [run] using hfind
  | cons act rest ih =>
      have hndL : assigned.Nodup := (List.nodup_append.1 hnd).1
      have hok := actionOK_of_nodup act rest assigned hnd hne
      obtain ⟨hinv', hstab⟩ := step_preserves st assigned act hndL hinv hok
      have hnd' : ((assigned ++ assignedIds [act]) ++ assignedIds rest).Nodup := by
        rw [List.append_assoc, ← assignedIds_cons]
        exact hnd
      have hne' : "" ∉ assignedIds rest := by
        intro h
        exact hne (by rw [assignedIds_cons]; exact List.mem_append_right _ h)
      rw [show run st (act :: rest) = run (stepAction st act) rest from rfl]
      exact ih (stepAction st act) (assigned ++ assignedIds [act]) hinv' hnd' hne'
        (hstab id ts hfind hterm)

/-- The empty system satisfies the invariant. -/
theorem inv_init : Inv Sys.init [] := by
  refine ⟨by simp [Sys.init], fun id _ => rfl, ?_⟩
  intro i th hth ts hts hterm
  simp [Sys.init] at hth

end Aegis

namespace Aegis

/-- Claim C3 counterexample: a task cancelled while `running` IS
subsequently overwritten — after `cancelRaceSched` the status is
`cancelled`, yet two more goroutine steps store `completed` over it. -/
theorem claim_C3_counterexample :
    (getTaskStatus (run Sys.init cancelRaceSched) "t1").toOption.map TaskStatus.status
        = some "cancelled" ∧
    (getTaskStatus (run Sys.init (cancelRaceSched ++ [.goStep 0, .goStep 0])) "t1").toOption.map
        TaskStatus.status = some "completed" :=
  ⟨rfl, rfl⟩

/-- Claim C3 (corrected): the no-resurrection invariant holds only for
the terminal states `completed` and `failed` — once a task record
carries one of them, no later operation of any well-formed schedule
(unique, explicit task ids, per the spec's §3 uniqueness invariant)
changes the record at all.  A `cancelled` task, by contrast, is
overwritten to `completed`/`failed` when its goroutine finishes (see the
counterexample). -/
theorem claim_C3 (acts more : List Action) (id : String) (ts : TaskStatus)
    (hwf : WellFormedSchedule (acts ++ more))
    (hfind : AList.find (run Sys.init acts).tasks id = some ts)
    (hterm : ts.status = "completed" ∨ ts.status = "failed") :
    AList.find (run Sys.init (acts ++ more)).tasks id = some ts := by
  obtain ⟨hnd, hne⟩ := hwf
  rw [assignedIds_append] at hnd hne
  simp only [List.mem_append, not_or] at hne
  have hinvA : Inv (run Sys.init acts) ([] ++ assignedIds acts) :=
    inv_run_aux acts Sys.init [] inv_init (by simpa using (List.nodup_append.1 hnd).1)
      hne.1
  have hinvA' : Inv (run Sys.init acts) (assignedIds acts) := by simpa using hinvA
  have hrun : run Sys.init (acts ++ more) = run (run Sys.init acts) more := by
    simp [run, List.foldl_append]
  rw [hrun]
  exact run_stable_aux more (run Sys.init acts) (assignedIds acts) hinvA' hnd hne.2
    id ts hfind hterm

/-- Witness for C3: the completed record of `c3WitActs` survives a
subsequent `CancelTask`. -/
theorem claim_C3_witness :
    WellFormedSchedule (c3WitActs ++ [Action.cancelTask "t1"]) ∧
    AList.find (run Sys.init c3WitActs).tasks "t1" = some c3CompletedTs ∧
    (c3CompletedTs.status = "completed" ∨ c3CompletedTs.status = "failed") ∧
    AList.find (run Sys.init (c3WitActs ++ [Action.cancelTask "t1"])).tasks "t1"
      = some c3CompletedTs :=
  ⟨⟨by decide, by decide⟩, rfl, Or.inl rfl,
   claim_C3 c3WitActs [Action.cancelTask "t1"] "t1" c3CompletedTs
     ⟨by decide, by decide⟩ rfl (Or.inl rfl)⟩

end Aegis
